import Mathlib

/-!
Verification of the go-module build-recipe generator
(`scripts/oe-go-mod-fetcher.py`).

Pure helpers of the script are embedded as Lean functions on `String` /
`List Char`; stateful functions (the ls-remote resolver, the commit
verifier) are embedded as explicit state-passing functions over a record
of module-level globals, with the outcomes of external `git` invocations
supplied by a `World` record of oracles.  Python exceptions that escape a
function are modelled with `Except`; exceptions the source catches are
folded into the normal return value exactly where the handler sits.
-/

namespace OeGoMod

/-! ## ASCII character helpers

The script manipulates module paths with Python's `re` module using the
classes `[A-Z]`, `[a-z]`, `\d` and `str.isdigit`; those are embedded here
as explicit ASCII range tests. -/

def isUpperAscii (c : Char) : Bool := 65 ≤ c.toNat && c.toNat ≤ 90

def isLowerAscii (c : Char) : Bool := 97 ≤ c.toNat && c.toNat ≤ 122

def isDigitAscii (c : Char) : Bool := 48 ≤ c.toNat && c.toNat ≤ 57

/-- `[0-9a-fA-F]` -/
def isHexAscii (c : Char) : Bool :=
  isDigitAscii c || (97 ≤ c.toNat && c.toNat ≤ 102) || (65 ≤ c.toNat && c.toNat ≤ 70)

/-- `[0-9a-f]` (lowercase only) -/
def isLowerHexAscii (c : Char) : Bool :=
  isDigitAscii c || (97 ≤ c.toNat && c.toNat ≤ 102)

def toLowerAscii (c : Char) : Char :=
  if isUpperAscii c then Char.ofNat (c.toNat + 32) else c

def toUpperAscii (c : Char) : Char :=
  if isLowerAscii c then Char.ofNat (c.toNat - 32) else c

theorem toNat_ofNat_of_le (n : Nat) (h : n ≤ 122) : (Char.ofNat n).toNat = n := by
  have hv : Nat.isValidChar n := Or.inl (by omega)
  rw [Char.ofNat, dif_pos hv]
  rfl

theorem isLowerAscii_toLowerAscii (c : Char) (h : isUpperAscii c = true) :
    isLowerAscii (toLowerAscii c) = true := by
  have h' := h
  simp only [isUpperAscii, Bool.and_eq_true, decide_eq_true_eq] at h'
  rw [toLowerAscii, if_pos h]
  simp only [isLowerAscii, toNat_ofNat_of_le _ (by omega : c.toNat + 32 ≤ 122),
    Bool.and_eq_true, decide_eq_true_eq]
  omega

theorem toUpperAscii_toLowerAscii (c : Char) (h : isUpperAscii c = true) :
    toUpperAscii (toLowerAscii c) = c := by
  simp only [isUpperAscii, Bool.and_eq_true, decide_eq_true_eq] at h
  have h1 : toLowerAscii c = Char.ofNat (c.toNat + 32) := by
    rw [toLowerAscii, if_pos]
    simp only [isUpperAscii, Bool.and_eq_true, decide_eq_true_eq]
    exact ⟨h.1, h.2⟩
  have h2 : (toLowerAscii c).toNat = c.toNat + 32 := by
    rw [h1, toNat_ofNat_of_le _ (by omega)]
  have h3 : isLowerAscii (toLowerAscii c) = true := by
    simp only [isLowerAscii, h2, Bool.and_eq_true, decide_eq_true_eq]; omega
  rw [toUpperAscii, if_pos h3, h2]
  have : c.toNat + 32 - 32 = c.toNat := by omega
  rw [this, Char.ofNat_toNat]

theorem not_isLowerAscii_of_isUpperAscii (c : Char) (h : isUpperAscii c = true) :
    isLowerAscii c = false := by
  simp only [isUpperAscii, Bool.and_eq_true, decide_eq_true_eq] at h
  simp only [isLowerAscii, Bool.and_eq_false_iff, decide_eq_false_iff_not]
  omega

/-! ## `escape_module_path` / `unescape_module_path`

Source (`oe-go-mod-fetcher.py` lines 3333-3347):

    def unescape_module_path(path):
        return re.sub(r'!([a-z])', lambda m: m.group(1).upper(), path)

    def escape_module_path(path):
        return re.sub(r'([A-Z])', lambda m: '!' + m.group(1).lower(), path)

`re.sub` scans left to right replacing non-overlapping matches, which is
exactly the structural recursion below. -/

def escapeChars : List Char → List Char
  | [] => []
  | c :: cs =>
    if isUpperAscii c then '!' :: toLowerAscii c :: escapeChars cs
    else c :: escapeChars cs

def unescapeChars : List Char → List Char
  | [] => []
  | [c] => [c]
  | c :: d :: cs =>
    if c = '!' && isLowerAscii d then toUpperAscii d :: unescapeChars cs
    else c :: unescapeChars (d :: cs)

def escape_module_path (s : String) : String := String.mk (escapeChars s.toList)

def unescape_module_path (s : String) : String := String.mk (unescapeChars s.toList)

theorem unescapeChars_escapeChars (l : List Char) (h : '!' ∉ l) :
    unescapeChars (escapeChars l) = l := by
  induction l with
  | nil => rfl
  | cons c cs ih =>
    have hc : c ≠ '!' := fun hc => h (hc ▸ List.mem_cons_self c cs)
    have hcs : '!' ∉ cs := fun hm => h (List.mem_cons_of_mem c hm)
    by_cases hu : isUpperAscii c = true
    · rw [escapeChars, if_pos hu]
      rw [unescapeChars]
      rw [if_pos (by simp [isLowerAscii_toLowerAscii c hu])]
      rw [toUpperAscii_toLowerAscii c hu, ih hcs]
    · rw [escapeChars, if_neg hu]
      rcases hcse : escapeChars cs with _ | ⟨d, ds⟩
      · rw [hcse] at ih
        rw [unescapeChars]
        have : cs = [] := by
          cases cs with
          | nil => rfl
          | cons x xs =>
            exfalso
            rw [escapeChars] at hcse
            split at hcse <;> simp at hcse
        rw [this]
      · rw [unescapeChars]
        rw [if_neg (by simp [hc])]
        rw [← hcse, ih hcs]

/-- **C10.** For every module path containing no `!`, unescaping the
escaped path gives back the original path: `escape_module_path` rewrites
each uppercase ASCII letter `X` to `!x` and `unescape_module_path`
rewrites each `!x` back to `X`, so the round trip is the identity on
`!`-free paths. -/
theorem escape_unescape_roundtrip (p : String) (h : '!' ∉ p.toList) :
    unescape_module_path (escape_module_path p) = p := by
  unfold unescape_module_path escape_module_path
  rcases p with ⟨l⟩
  simp only [String.toList] at h ⊢
  rw [unescapeChars_escapeChars l h]

/-- Witness for C10 at a concrete input. -/
theorem escape_unescape_roundtrip_witness :
    unescape_module_path (escape_module_path "github.com/Sirupsen/logrus") =
      "github.com/Sirupsen/logrus" :=
  escape_unescape_roundtrip "github.com/Sirupsen/logrus" (by decide)

/-! ## Python string primitives

`str.strip()`, `str.split()` (no argument: split on runs of whitespace),
`str.startswith`, `str.endswith` and slicing, embedded on `List Char`. -/

def pyIsSpace (c : Char) : Bool := c.toNat = 32 || (9 ≤ c.toNat && c.toNat ≤ 13)

def pyStripChars (cs : List Char) : List Char :=
  ((cs.dropWhile pyIsSpace).reverse.dropWhile pyIsSpace).reverse

def pyStrip (s : String) : String := String.mk (pyStripChars s.toList)

def wordsAux : List Char → List Char → List String
  | [], acc => if acc = [] then [] else [String.mk acc.reverse]
  | c :: cs, acc =>
    if pyIsSpace c then
      if acc = [] then wordsAux cs [] else String.mk acc.reverse :: wordsAux cs []
    else wordsAux cs (c :: acc)

/-- Python `s.split()` with no separator. -/
def pySplitWS (s : String) : List String := wordsAux s.toList []

def leadsWith : List Char → List Char → Bool
  | [], _ => true
  | _ :: _, [] => false
  | p :: ps, c :: cs => p = c && leadsWith ps cs

/-- Python `s.startswith(pat)`. -/
def strLeads (pat s : String) : Bool := leadsWith pat.toList s.toList

/-- Python `s.endswith(pat)`. -/
def strEnds (pat s : String) : Bool := leadsWith pat.toList.reverse s.toList.reverse

/-- Python `s[:-n]`. -/
def strDropRight (n : Nat) (s : String) : String :=
  String.mk (s.toList.take (s.toList.length - n))

/-! ## `parse_go_sum` (C9)

Source lines 96-161.  Lines are stripped; blank lines and `//` comments
skipped; a line must split into exactly three whitespace-separated
fields `module version hash`; the module name is unquoted; a version
ending in `/go.mod` marks a module-file-only entry and the suffix is
stripped for the key.  A first pass folds the lines into an
insertion-ordered table of per-key flags, a second pass partitions the
keys. -/

/-- Source lines 105-112 (`sanitize_module_name`). -/
def sanitizeModuleName (name : String) : String :=
  if name = "" then name
  else
    let stripped := pyStrip name
    let cs := stripped.toList
    if 2 ≤ cs.length && cs.head? == some '"' && cs.getLast? == some '"' then
      String.mk (cs.drop 1 |>.dropLast)
    else stripped

abbrev SumKey := String × String

structure SumFlags where
  hasSource : Bool
  hasGomod : Bool
deriving DecidableEq

/-- Parse one checksum-file line into its key and whether it is a
`/go.mod` entry (source lines 123-139); `none` for skipped lines. -/
def parseSumLine (line : String) : Option (SumKey × Bool) :=
  let line := pyStrip line
  if line = "" then none
  else if strLeads "//" line then none
  else
    match pySplitWS line with
    | [m, v, _h] =>
      let m := sanitizeModuleName m
      let isG := strEnds "/go.mod" v
      let base := if isG then strDropRight 7 v else v
      some ((m, base), isG)
    | _ => none

def bumpFlags (f : SumFlags) (isG : Bool) : SumFlags :=
  if isG then { f with hasGomod := true } else { f with hasSource := true }

def newFlags (isG : Bool) : SumFlags := bumpFlags ⟨false, false⟩ isG

/-- `all_entries[key] = {...}` dict update, insertion ordered. -/
def updEntries : List (SumKey × SumFlags) → SumKey → Bool → List (SumKey × SumFlags)
  | [], k, isG => [(k, newFlags isG)]
  | (k', f) :: rest, k, isG =>
    if k' = k then (k', bumpFlags f isG) :: rest
    else (k', f) :: updEntries rest k isG

def sumStep (es : List (SumKey × SumFlags)) (line : String) : List (SumKey × SumFlags) :=
  match parseSumLine line with
  | none => es
  | some (k, isG) => updEntries es k isG

/-- First pass of `parse_go_sum` (source lines 120-147). -/
def buildSumEntries (lines : List String) : List (SumKey × SumFlags) :=
  lines.foldl sumStep []

/-- `parse_go_sum` (source lines 96-161), on the file's lines.  Returns
`(modules_with_source, modules_with_gomod_only)`. -/
def parse_go_sum (lines : List String) : List SumKey × List SumKey :=
  let es := buildSumEntries lines
  ((es.filter fun kf => kf.2.hasSource).map (fun kf => kf.1),
   (es.filter fun kf => !kf.2.hasSource && kf.2.hasGomod).map (fun kf => kf.1))

/-- Association-list lookup with decidable key equality. -/
def findFlags : List (SumKey × SumFlags) → SumKey → Option SumFlags
  | [], _ => none
  | (k', f) :: rest, k => if k' = k then some f else findFlags rest k

/-- Some checksum line contributes a source (non-`/go.mod`) entry for `k`. -/
def anySrc (lines : List String) (k : SumKey) : Bool :=
  lines.any fun l => decide (parseSumLine l = some (k, false))

/-- Some checksum line contributes a `/go.mod` entry for `k`. -/
def anyGomod (lines : List String) (k : SumKey) : Bool :=
  lines.any fun l => decide (parseSumLine l = some (k, true))

def srcFlag (es : List (SumKey × SumFlags)) (k : SumKey) : Bool :=
  ((findFlags es k).getD ⟨false, false⟩).hasSource

def gomodFlag (es : List (SumKey × SumFlags)) (k : SumKey) : Bool :=
  ((findFlags es k).getD ⟨false, false⟩).hasGomod

theorem findFlags_updEntries_self (es : List (SumKey × SumFlags)) (k : SumKey) (isG : Bool) :
    findFlags (updEntries es k isG) k =
      some (bumpFlags ((findFlags es k).getD ⟨false, false⟩) isG) := by
  induction es with
  | nil => simp [updEntries, findFlags, newFlags]
  | cons kf rest ih =>
    rcases kf with ⟨k', f⟩
    by_cases hk : k' = k
    · simp [updEntries, hk, findFlags]
    · simp [updEntries, hk, findFlags, ih]

theorem findFlags_updEntries_other (es : List (SumKey × SumFlags)) (k k' : SumKey)
    (isG : Bool) (h : k' ≠ k) :
    findFlags (updEntries es k isG) k' = findFlags es k' := by
  have hkk : ¬(k = k') := fun e => h e.symm
  induction es with
  | nil =>
    simp only [updEntries, findFlags, if_neg hkk]
  | cons kf rest ih =>
    rcases kf with ⟨k'', f⟩
    by_cases hk : k'' = k
    · rw [updEntries, if_pos hk, findFlags, findFlags,
        if_neg (by rw [hk]; exact hkk), if_neg (by rw [hk]; exact hkk)]
    · rw [updEntries, if_neg hk, findFlags, findFlags]
      by_cases hk2 : k'' = k'
      · rw [if_pos hk2, if_pos hk2]
      · rw [if_neg hk2, if_neg hk2, ih]

theorem srcFlag_sumStep (es : List (SumKey × SumFlags)) (l : String) (k : SumKey) :
    srcFlag (sumStep es l) k =
      (srcFlag es k || decide (parseSumLine l = some (k, false))) := by
  unfold sumStep
  rcases hp : parseSumLine l with _ | ⟨k', isG⟩
  · simp
  · simp only []
    by_cases hk : k' = k
    · subst hk
      rw [srcFlag, findFlags_updEntries_self]
      cases isG <;> simp [srcFlag, bumpFlags]
    · rw [srcFlag, findFlags_updEntries_other es k' k isG (fun e => hk e.symm)]
      rw [srcFlag]
      have hne : ¬((k', isG) = ((k, false) : SumKey × Bool)) := by
        intro e
        exact hk (congrArg Prod.fst e)
      simp [hne]

theorem gomodFlag_sumStep (es : List (SumKey × SumFlags)) (l : String) (k : SumKey) :
    gomodFlag (sumStep es l) k =
      (gomodFlag es k || decide (parseSumLine l = some (k, true))) := by
  unfold sumStep
  rcases hp : parseSumLine l with _ | ⟨k', isG⟩
  · simp
  · simp only []
    by_cases hk : k' = k
    · subst hk
      rw [gomodFlag, findFlags_updEntries_self]
      cases isG <;> simp [gomodFlag, bumpFlags]
    · rw [gomodFlag, findFlags_updEntries_other es k' k isG (fun e => hk e.symm)]
      rw [gomodFlag]
      have hne : ¬((k', isG) = ((k, true) : SumKey × Bool)) := by
        intro e
        exact hk (congrArg Prod.fst e)
      simp [hne]

theorem srcFlag_foldl (lines : List String) (es : List (SumKey × SumFlags)) (k : SumKey) :
    srcFlag (lines.foldl sumStep es) k = (srcFlag es k || anySrc lines k) := by
  induction lines generalizing es with
  | nil => simp [anySrc]
  | cons l ls ih =>
    rw [List.foldl_cons, ih, srcFlag_sumStep]
    simp [anySrc, Bool.or_assoc]

theorem gomodFlag_foldl (lines : List String) (es : List (SumKey × SumFlags)) (k : SumKey) :
    gomodFlag (lines.foldl sumStep es) k = (gomodFlag es k || anyGomod lines k) := by
  induction lines generalizing es with
  | nil => simp [anyGomod]
  | cons l ls ih =>
    rw [List.foldl_cons, ih, gomodFlag_sumStep]
    simp [anyGomod, Bool.or_assoc]

theorem findFlags_mem (es : List (SumKey × SumFlags)) (k : SumKey) (f : SumFlags)
    (h : findFlags es k = some f) : (k, f) ∈ es := by
  induction es with
  | nil => simp [findFlags] at h
  | cons kf rest ih =>
    rcases kf with ⟨k', f'⟩
    by_cases hk : k' = k
    · subst hk
      rw [findFlags, if_pos rfl] at h
      injection h with h
      subst h
      exact List.mem_cons_self _ _
    · rw [findFlags, if_neg hk] at h
      exact List.mem_cons_of_mem _ (ih h)

def keysND (es : List (SumKey × SumFlags)) : Prop := (es.map fun kf => kf.1).Nodup

theorem mem_updEntries_key (es : List (SumKey × SumFlags)) (k : SumKey) (isG : Bool)
    (k2 : SumKey) (f2 : SumFlags) (h : (k2, f2) ∈ updEntries es k isG) :
    (∃ f', (k2, f') ∈ es) ∨ k2 = k := by
  induction es with
  | nil =>
    rw [updEntries] at h
    have h' := List.mem_singleton.mp h
    right
    exact congrArg Prod.fst h'
  | cons kf rest ih =>
    rcases kf with ⟨k', f⟩
    by_cases hk : k' = k
    · rw [updEntries, if_pos hk] at h
      rcases List.mem_cons.mp h with h1 | h1
      · left
        exact ⟨f, by injection h1 with ha hb; rw [ha]; exact List.mem_cons_self _ _⟩
      · left
        exact ⟨f2, List.mem_cons_of_mem _ h1⟩
    · rw [updEntries, if_neg hk] at h
      rcases List.mem_cons.mp h with h1 | h1
      · left
        exact ⟨f2, by rw [h1]; exact List.mem_cons_self _ _⟩
      · rcases ih h1 with ⟨f', hf'⟩ | h2
        · exact Or.inl ⟨f', List.mem_cons_of_mem _ hf'⟩
        · exact Or.inr h2

theorem keysND_updEntries (es : List (SumKey × SumFlags)) (k : SumKey) (isG : Bool)
    (h : keysND es) : keysND (updEntries es k isG) := by
  induction es with
  | nil => simp [updEntries, keysND]
  | cons kf rest ih =>
    rcases kf with ⟨k', f⟩
    rw [keysND, List.map_cons, List.nodup_cons] at h
    by_cases hk : k' = k
    · rw [updEntries, if_pos hk]
      rw [keysND, List.map_cons, List.nodup_cons]
      exact h
    · rw [updEntries, if_neg hk]
      rw [keysND, List.map_cons, List.nodup_cons]
      constructor
      · intro hmem
        rcases List.mem_map.mp hmem with ⟨⟨k2, f2⟩, hm2, he2⟩
        dsimp at he2
        rcases mem_updEntries_key rest k isG k2 f2 hm2 with ⟨f', hf'⟩ | h'
        · exact h.1 (List.mem_map.mpr ⟨(k2, f'), hf', he2⟩)
        · rw [← he2] at hk
          exact hk h'
      · exact ih h.2

theorem keysND_foldl (lines : List String) (es : List (SumKey × SumFlags))
    (h : keysND es) : keysND (lines.foldl sumStep es) := by
  induction lines generalizing es with
  | nil => exact h
  | cons l ls ih =>
    rw [List.foldl_cons]
    apply ih
    unfold sumStep
    rcases parseSumLine l with _ | ⟨k, isG⟩
    · exact h
    · exact keysND_updEntries es k isG h

theorem mem_map_fst_filter (es : List (SumKey × SumFlags)) (p : SumKey × SumFlags → Bool)
    (k : SumKey) :
    (k ∈ (es.filter p).map (fun kf => kf.1)) ↔ ∃ f, (k, f) ∈ es ∧ p (k, f) = true := by
  constructor
  · intro h
    rcases List.mem_map.mp h with ⟨⟨k2, f2⟩, hm, he⟩
    dsimp at he
    subst he
    rcases List.mem_filter.mp hm with ⟨hmem, hp⟩
    exact ⟨f2, hmem, hp⟩
  · rintro ⟨f, hm, hp⟩
    exact List.mem_map.mpr ⟨(k, f), List.mem_filter.mpr ⟨hm, hp⟩, rfl⟩

theorem mem_findFlags (es : List (SumKey × SumFlags)) (k : SumKey) (f : SumFlags)
    (hnd : keysND es) (h : (k, f) ∈ es) : findFlags es k = some f := by
  induction es with
  | nil => simp at h
  | cons kf rest ih =>
    rcases kf with ⟨k', f'⟩
    rw [keysND, List.map_cons, List.nodup_cons] at hnd
    rcases List.mem_cons.mp h with h1 | h1
    · injection h1 with h1 h2
      rw [findFlags, if_pos h1.symm, h2]
    · by_cases hk : k' = k
      · exfalso
        subst hk
        exact hnd.1 (List.mem_map.mpr ⟨(k', f), h1, rfl⟩)
      · rw [findFlags, if_neg hk]
        exact ih hnd.2 h1

theorem srcFlag_build (lines : List String) (k : SumKey) :
    srcFlag (buildSumEntries lines) k = anySrc lines k := by
  rw [buildSumEntries, srcFlag_foldl]
  simp [srcFlag, findFlags]

theorem gomodFlag_build (lines : List String) (k : SumKey) :
    gomodFlag (buildSumEntries lines) k = anyGomod lines k := by
  rw [buildSumEntries, gomodFlag_foldl]
  simp [gomodFlag, findFlags]

theorem keysND_build (lines : List String) : keysND (buildSumEntries lines) :=
  keysND_foldl lines [] (by simp [keysND])

/-- **C9.** For every checksum file, `parse_go_sum` places a
`(module, version)` pair whose entries all carry the `/go.mod` version
suffix only in the returned indirect-only set (and never in the
modules-with-source set), places any pair with at least one source
(non-`/go.mod`) entry in the modules-with-source set, and the two
returned sets are disjoint. -/
theorem parse_go_sum_partition (lines : List String) (k : SumKey) :
    (anySrc lines k = true → k ∈ (parse_go_sum lines).1)
  ∧ (anyGomod lines k = true → anySrc lines k = false →
       k ∈ (parse_go_sum lines).2 ∧ k ∉ (parse_go_sum lines).1)
  ∧ (k ∈ (parse_go_sum lines).1 → k ∉ (parse_go_sum lines).2) := by
  have hsrc := srcFlag_build lines k
  have hgomod := gomodFlag_build lines k
  have hnd := keysND_build lines
  refine ⟨?_, ?_, ?_⟩
  · intro h
    rw [← hsrc, srcFlag] at h
    rcases hf : findFlags (buildSumEntries lines) k with _ | f
    · rw [hf] at h
      simp at h
    · rw [hf] at h
      simp only [Option.getD_some] at h
      exact (mem_map_fst_filter _ _ k).mpr ⟨f, findFlags_mem _ _ _ hf, h⟩
  · intro hg hs
    rw [← hgomod, gomodFlag] at hg
    rw [← hsrc, srcFlag] at hs
    rcases hf : findFlags (buildSumEntries lines) k with _ | f
    · rw [hf] at hg
      simp at hg
    · rw [hf] at hg hs
      simp only [Option.getD_some] at hg hs
      constructor
      · exact (mem_map_fst_filter _ _ k).mpr ⟨f, findFlags_mem _ _ _ hf, by simp [hs, hg]⟩
      · intro hmem
        rcases (mem_map_fst_filter _ _ k).mp hmem with ⟨f', hm', hp'⟩
        rw [mem_findFlags _ _ _ hnd hm'] at hf
        injection hf with hf
        rw [← hf] at hs
        rw [hp'] at hs
        exact absurd hs (by simp)
  · intro hmem hmem'
    rcases (mem_map_fst_filter _ _ k).mp hmem with ⟨f, hm, hp⟩
    rcases (mem_map_fst_filter _ _ k).mp hmem' with ⟨f', hm', hp'⟩
    have e1 := mem_findFlags _ _ _ hnd hm
    have e2 := mem_findFlags _ _ _ hnd hm'
    rw [e1] at e2
    injection e2 with e2
    rw [← e2] at hp'
    rw [hp] at hp'
    simp at hp'

/-- Witness for C9 on a concrete three-line checksum file:
`example.com/a v1.0.0` has a source entry and lands in the first set;
`example.com/b v2.0.0` has only a `/go.mod` entry and lands only in the
second. -/
theorem parse_go_sum_partition_witness :
    (("example.com/b", "v2.0.0") ∈
        (parse_go_sum ["example.com/a v1.0.0 h1:abc=",
          "example.com/a v1.0.0/go.mod h1:def=",
          "example.com/b v2.0.0/go.mod h1:ghi="]).2
      ∧ ("example.com/b", "v2.0.0") ∉
        (parse_go_sum ["example.com/a v1.0.0 h1:abc=",
          "example.com/a v1.0.0/go.mod h1:def=",
          "example.com/b v2.0.0/go.mod h1:ghi="]).1) :=
  (parse_go_sum_partition
    ["example.com/a v1.0.0 h1:abc=",
     "example.com/a v1.0.0/go.mod h1:def=",
     "example.com/b v2.0.0/go.mod h1:ghi="]
    ("example.com/b", "v2.0.0")).2.1 (by decide) (by decide)

/-! ## Association-list primitives for the Python dict-backed caches -/

def lookupA {α β : Type} [DecidableEq α] : List (α × β) → α → Option β
  | [], _ => none
  | (k, v) :: rest, key => if k = key then some v else lookupA rest key

/-- Python dict assignment `d[key] = v` (update in place or append). -/
def insertA {α β : Type} [DecidableEq α] : List (α × β) → α → β → List (α × β)
  | [], key, v => [(key, v)]
  | (k, v') :: rest, key, v =>
    if k = key then (k, v) :: rest else (k, v') :: insertA rest key v

/-- Python dict removal `d.pop(key, None)`. -/
def eraseA {α β : Type} [DecidableEq α] : List (α × β) → α → List (α × β)
  | [], _ => []
  | (k, v) :: rest, key => if k = key then rest else (k, v) :: eraseA rest key

theorem lookupA_insertA_self {α β : Type} [DecidableEq α] (c : List (α × β)) (k : α) (v : β) :
    lookupA (insertA c k v) k = some v := by
  induction c with
  | nil => simp [insertA, lookupA]
  | cons kv rest ih =>
    rcases kv with ⟨k', v'⟩
    by_cases hk : k' = k
    · simp [insertA, hk, lookupA]
    · simp [insertA, hk, lookupA, ih]

/-! ## `git_ls_remote` (C5, C8)

Source lines 2210-2316.  The in-memory `LS_REMOTE_CACHE` dict and its
dirty flag are the state; the outcomes of the local `show-ref` probe and
of the network `ls-remote` call are oracles. -/

/-- Refs passed to the single `git ls-remote` invocation (source lines
2270-2275): a `refs/tags/` ref is queried together with its peeled form
`ref^\x7b\x7d` in the same command. -/
def refsToQuery (ref : String) : List String :=
  if strLeads "refs/tags/" ref then [ref, ref ++ "^\x7b\x7d"] else [ref]

/-- One step over an ls-remote output line (source lines 2287-2298); the
state is `(tag_object_hash, dereferenced_hash)`. -/
def lsLineStep (st : Option String × Option String) (line : String) :
    Option String × Option String :=
  match pySplitWS line with
  | hashVal :: refName :: _ =>
    if strEnds "^\x7b\x7d" refName then (st.1, some hashVal) else (some hashVal, st.2)
  | _ => st

/-- Parse `git ls-remote` output (source lines 2283-2301): the peeled
(`^\x7b\x7d`) hash is preferred over the tag-object hash. -/
def parseLsRemoteOutput (lines : List String) : Option String :=
  let st := lines.foldl lsLineStep (none, none)
  match st.2 with
  | some h => some h
  | none => st.1

/-- The hash of the last peeled (`^\x7b\x7d`) line of the output
(specification-side helper). -/
def lastPeeled (lines : List String) : Option String :=
  lines.foldl
    (fun acc line =>
      match pySplitWS line with
      | hashVal :: refName :: _ =>
        if strEnds "^\x7b\x7d" refName then some hashVal else acc
      | _ => acc)
    none

theorem foldl_lsLineStep_snd (lines : List String) (st : Option String × Option String) :
    (lines.foldl lsLineStep st).2 =
      lines.foldl
        (fun acc line =>
          match pySplitWS line with
          | hashVal :: refName :: _ =>
            if strEnds "^\x7b\x7d" refName then some hashVal else acc
          | _ => acc)
        st.2 := by
  induction lines generalizing st with
  | nil => rfl
  | cons l ls ih =>
    rw [List.foldl_cons, List.foldl_cons, ih]
    congr 1
    rw [lsLineStep]
    rcases pySplitWS l with _ | ⟨hv, _ | ⟨rn, rest⟩⟩
    · rfl
    · rfl
    · dsimp
      by_cases hp : strEnds "^\x7b\x7d" rn = true
      · rw [if_pos hp, if_pos hp]
      · rw [if_neg hp, if_neg hp]

/-- **C5.** For every ref beginning with `refs/tags/`, `git_ls_remote`
queries both the ref and its peeled form in the same ls-remote
invocation, and whenever the output contains a peeled line the returned
commit hash is the (last) peeled hash — in particular the peeled hash
wins over a tag-object hash when both are present. -/
theorem git_ls_remote_tag_query_peeled (ref : String) (lines : List String) (h : String) :
    (strLeads "refs/tags/" ref = true → refsToQuery ref = [ref, ref ++ "^\x7b\x7d"])
  ∧ (lastPeeled lines = some h → parseLsRemoteOutput lines = some h) := by
  constructor
  · intro htag
    rw [refsToQuery, if_pos htag]
  · intro hp
    rw [parseLsRemoteOutput]
    rw [foldl_lsLineStep_snd]
    rw [lastPeeled] at hp
    rw [hp]

/-- Witness for C5: annotated tag `v1.2.3` whose output lists the tag
object `aaa` and the peeled commit `bbb`; the peeled hash is returned. -/
theorem git_ls_remote_tag_query_peeled_witness :
    refsToQuery "refs/tags/v1.2.3" = ["refs/tags/v1.2.3", "refs/tags/v1.2.3^\x7b\x7d"]
  ∧ parseLsRemoteOutput
      ["aaa refs/tags/v1.2.3", "bbb refs/tags/v1.2.3^\x7b\x7d"] = some "bbb" :=
  ⟨(git_ls_remote_tag_query_peeled "refs/tags/v1.2.3" [] "").1 (by decide),
   (git_ls_remote_tag_query_peeled "refs/tags/v1.2.3"
      ["aaa refs/tags/v1.2.3", "bbb refs/tags/v1.2.3^\x7b\x7d"] "bbb").2 (by decide)⟩

/-- `LS_REMOTE_CACHE` and `LS_REMOTE_CACHE_DIRTY` (source lines 2223,
2250-2251, 2303-2315). -/
structure LsRemoteState where
  cache : List ((String × String) × Option String)
  dirty : Bool
deriving DecidableEq

inductive NetOutcome where
  | timeout
  | procError
  | output (lines : List String)
deriving DecidableEq

/-- Oracles for the external effects of `git_ls_remote`. -/
structure LsWorld where
  /-- The bare clone directory for the url exists with a `HEAD` file
  (source line 2238). -/
  hasLocalRepo : String → Bool
  /-- Result of the local `git show-ref --hash ref` probe (source lines
  2241-2254); `none` covers failure, empty output and exceptions, all of
  which fall through to the network. -/
  showRef : String → String → Option String
  /-- Outcome of the network `git ls-remote url <refsToQuery ref>` call
  (source lines 2274-2281). -/
  net : String → String → NetOutcome

/-- `git_ls_remote` (source lines 2210-2316): returns the resolved hash,
the updated cache state, and whether the network call was made. -/
def git_ls_remote (w : LsWorld) (st : LsRemoteState) (url ref : String) :
    Option String × LsRemoteState × Bool :=
  match lookupA st.cache (url, ref) with
  | some v => (v, st, false)
  | none =>
    match (if w.hasLocalRepo url then w.showRef url ref else none) with
    | some h => (some h, ⟨insertA st.cache (url, ref) (some h), true⟩, false)
    | none =>
      match w.net url ref with
      | .timeout => (none, ⟨insertA st.cache (url, ref) none, true⟩, true)
      | .procError => (none, ⟨insertA st.cache (url, ref) none, true⟩, true)
      | .output lines =>
        match parseLsRemoteOutput lines with
        | some h => (some h, ⟨insertA st.cache (url, ref) (some h), true⟩, true)
        | none => (none, st, true)

/-- **C8.** When the network ls-remote call times out, `git_ls_remote`
caches `null` for the `(url, ref)` pair, marks the cache dirty, and
returns `null` rather than raising; a subsequent lookup of the same pair
returns the cached `null` without touching the network. -/
theorem git_ls_remote_timeout_caches_null (w : LsWorld) (st : LsRemoteState)
    (url ref : String)
    (hc : lookupA st.cache (url, ref) = none)
    (hl : (if w.hasLocalRepo url then w.showRef url ref else none) = none)
    (hn : w.net url ref = NetOutcome.timeout) :
    (git_ls_remote w st url ref).1 = none
  ∧ (git_ls_remote w st url ref).2.1.dirty = true
  ∧ lookupA (git_ls_remote w st url ref).2.1.cache (url, ref) = some none
  ∧ (git_ls_remote w st url ref).2.2 = true
  ∧ git_ls_remote w (git_ls_remote w st url ref).2.1 url ref =
      (none, (git_ls_remote w st url ref).2.1, false) := by
  have h1 : git_ls_remote w st url ref =
      (none, ⟨insertA st.cache (url, ref) none, true⟩, true) := by
    rw [git_ls_remote, hc, hl, hn]
  rw [h1]
  refine ⟨rfl, rfl, ?_, rfl, ?_⟩
  · exact lookupA_insertA_self st.cache (url, ref) none
  · rw [git_ls_remote, lookupA_insertA_self st.cache (url, ref) none]

/-- Witness for C8: empty cache, no local clone, timing-out network. -/
theorem git_ls_remote_timeout_caches_null_witness :
    (git_ls_remote
        ⟨fun _ => false, fun _ _ => none, fun _ _ => NetOutcome.timeout⟩
        ⟨[], false⟩ "https://example.com/r" "refs/tags/v1").1 = none
  ∧ (git_ls_remote
        ⟨fun _ => false, fun _ _ => none, fun _ _ => NetOutcome.timeout⟩
        ⟨[], false⟩ "https://example.com/r" "refs/tags/v1").2.1.dirty = true :=
  by
    have h := git_ls_remote_timeout_caches_null
      ⟨fun _ => false, fun _ _ => none, fun _ _ => NetOutcome.timeout⟩
      ⟨[], false⟩ "https://example.com/r" "refs/tags/v1" (by rfl) (by rfl) (by rfl)
    exact ⟨h.1, h.2.1⟩

/-! ## `resolve_pseudo_version_commit` (C6, C7)

Source lines 2578-2711.  The timestamp is parsed with
`datetime.strptime(s, "%Y%m%d%H%M%S")`; `ValueError` (bad format or
impossible date) and `OverflowError` (±1-day window leaving the datetime
range) are caught and turn into a `None` return, embedded here as a total
function into `Option`.  The per-URL clone/fetch/log pipeline is an
oracle giving the `git log` output lines, or `none` when any of the git
calls for that candidate URL fails. -/

structure PyDateTime where
  year : Nat
  month : Nat
  day : Nat
  hour : Nat
  minute : Nat
  second : Nat
deriving DecidableEq

def natOfDigits (cs : List Char) : Nat :=
  cs.foldl (fun n c => n * 10 + (c.toNat - 48)) 0

def isLeapYear (y : Nat) : Bool := y % 4 = 0 && (decide (y % 100 ≠ 0) || y % 400 = 0)

def daysInMonth (y m : Nat) : Nat :=
  if m = 2 then (if isLeapYear y then 29 else 28)
  else if m = 4 ∨ m = 6 ∨ m = 9 ∨ m = 11 then 30
  else 31

/-- Python `datetime.strptime(s, "%Y%m%d%H%M%S")`: four year digits then
five two-digit fields, all validated (month 1-12, day valid for the
month, hour ≤ 23, minute ≤ 59, second ≤ 59, year ≥ 1); any failure
raises `ValueError`, embedded as `none`. -/
def parseStrptime14 (s : String) : Option PyDateTime :=
  let cs := s.toList
  if cs.length = 14 && cs.all isDigitAscii then
    let y := natOfDigits (cs.take 4)
    let mo := natOfDigits ((cs.drop 4).take 2)
    let d := natOfDigits ((cs.drop 6).take 2)
    let h := natOfDigits ((cs.drop 8).take 2)
    let mi := natOfDigits ((cs.drop 10).take 2)
    let sec := natOfDigits ((cs.drop 12).take 2)
    if 1 ≤ y && 1 ≤ mo && mo ≤ 12 && 1 ≤ d && d ≤ daysInMonth y mo
        && h ≤ 23 && mi ≤ 59 && sec ≤ 59 then
      some ⟨y, mo, d, h, mi, sec⟩
    else none
  else none

/-- `dt ± timedelta(days=1)` leaves Python's datetime range
(`0001-01-01 … 9999-12-31`), raising `OverflowError`. -/
def windowOverflow (dt : PyDateTime) : Bool :=
  (dt.year = 9999 && dt.month = 12 && dt.day = 31)
    || (dt.year = 1 && dt.month = 1 && dt.day = 1)

/-- Timestamp validation of `resolve_pseudo_version_commit` (source
lines 2598-2620): strptime, the 1970-9999 year range check, the year-1
special case and the ±1-day window arithmetic. -/
def checkPseudoTimestamp (s : String) : Option PyDateTime :=
  match parseStrptime14 s with
  | none => none
  | some dt =>
    if dt.year < 1970 || 9999 < dt.year then none
    else if dt.year = 1 then none
    else if windowOverflow dt then none
    else some dt

def containsSub (pat : List Char) : List Char → Bool
  | [] => leadsWith pat []
  | c :: cs => leadsWith pat (c :: cs) || containsSub pat cs

/-- Python `s in t` (substring containment). -/
def strContains (pat s : String) : Bool := containsSub pat.toList s.toList

/-- Python `s.rstrip('/')`. -/
def pyRStripSlash (s : String) : String :=
  String.mk ((s.toList.reverse.dropWhile (fun c => c = '/')).reverse)

/-- `get_github_mirror_url` (source lines 2570-2575). -/
def get_github_mirror_url (vcs_url : String) : Option String :=
  if strContains "go.googlesource.com" vcs_url then
    some ("https://github.com/golang/"
      ++ List.getLastD (String.splitOn (pyRStripSlash vcs_url) "/") "")
  else none

/-- `urls_to_try` (source lines 2622-2626). -/
def urlsToTry (vcs_url : String) : List String :=
  vcs_url ::
    (match get_github_mirror_url vcs_url with
     | some m => [m]
     | none => [])

/-- Scan `git log --all --format=%H %ct` output for the first full hash
whose prefix is the pseudo-version short hash (source lines 2684-2692). -/
def scanLog (short : String) : List String → Option String
  | [] => none
  | line :: rest =>
    match pySplitWS line with
    | full :: _ :: _ => if strLeads short full then some full else scanLog short rest
    | _ => scanLog short rest

/-- Oracle for the per-candidate-URL clone/fetch/log pipeline of
`resolve_pseudo_version_commit` (source lines 2632-2708): `none` when
cloning or the log query fails for that URL, otherwise the log output
lines for the ±1-day window. -/
structure PseudoWorld where
  logOf : String → Option (List String)

def tryPseudoUrls (w : PseudoWorld) (short : String) : List String → Option String
  | [] => none
  | u :: us =>
    match w.logOf u with
    | none => tryPseudoUrls w short us
    | some lines =>
      match scanLog short lines with
      | some h => some h
      | none => tryPseudoUrls w short us

/-- `resolve_pseudo_version_commit` (source lines 2578-2711). -/
def resolve_pseudo_version_commit (w : PseudoWorld)
    (vcs_url timestampStr short_commit : String) : Option String :=
  match checkPseudoTimestamp timestampStr with
  | none => none
  | some _ => tryPseudoUrls w short_commit (urlsToTry vcs_url)

/-- What one candidate URL yields: the first prefix-matching hash of its
log window, if the pipeline succeeded for it. -/
def urlYields (w : PseudoWorld) (u short : String) : Option String :=
  match w.logOf u with
  | none => none
  | some lines => scanLog short lines

theorem scanLog_some_leads (short : String) (lines : List String) (h : String)
    (hs : scanLog short lines = some h) : strLeads short h = true := by
  induction lines with
  | nil => simp [scanLog] at hs
  | cons line rest ih =>
    rw [scanLog] at hs
    rcases hp : pySplitWS line with _ | ⟨full, _ | ⟨w2, ws⟩⟩ <;> rw [hp] at hs <;>
      dsimp only at hs
    · exact ih hs
    · exact ih hs
    · by_cases hl : strLeads short full = true
      · rw [if_pos hl] at hs
        injection hs with hs
        rw [← hs]
        exact hl
      · rw [if_neg hl] at hs
        exact ih hs

theorem tryPseudoUrls_some (w : PseudoWorld) (short : String) (us : List String) (h : String)
    (hs : tryPseudoUrls w short us = some h) : ∃ u ∈ us, urlYields w u short = some h := by
  induction us with
  | nil => simp [tryPseudoUrls] at hs
  | cons u rest ih =>
    rw [tryPseudoUrls] at hs
    rcases hl : w.logOf u with _ | lines <;> rw [hl] at hs <;> dsimp only at hs
    · rcases ih hs with ⟨u', hu', hy⟩
      exact ⟨u', List.mem_cons_of_mem _ hu', hy⟩
    · rcases hsc : scanLog short lines with _ | h' <;> rw [hsc] at hs <;> dsimp only at hs
      · rcases ih hs with ⟨u', hu', hy⟩
        exact ⟨u', List.mem_cons_of_mem _ hu', hy⟩
      · injection hs with hs
        subst hs
        exact ⟨u, List.mem_cons_self _ _, by rw [urlYields, hl]; dsimp only; rw [hsc]⟩

theorem tryPseudoUrls_none (w : PseudoWorld) (short : String) (us : List String)
    (hs : tryPseudoUrls w short us = none) : ∀ u ∈ us, urlYields w u short = none := by
  induction us with
  | nil => simp
  | cons u rest ih =>
    rw [tryPseudoUrls] at hs
    intro u' hu'
    rcases hl : w.logOf u with _ | lines <;> rw [hl] at hs <;> dsimp only at hs
    · rcases List.mem_cons.mp hu' with h1 | h1
      · rw [h1, urlYields, hl]
      · exact ih hs u' h1
    · rcases hsc : scanLog short lines with _ | h' <;> rw [hsc] at hs <;> dsimp only at hs
      · rcases List.mem_cons.mp hu' with h1 | h1
        · rw [h1, urlYields, hl]
          dsimp only
          rw [hsc]
        · exact ih hs u' h1
      · exact absurd hs (by simp)

/-- **C6.** When `resolve_pseudo_version_commit` returns a hash, that
hash has the pseudo-version's short hash as a prefix and is what the
date-window log scan of one of the candidate URLs (primary plus GitHub
mirror when applicable) yields as its first match; it returns `null`
only when every candidate URL fails to yield such a hash. -/
theorem resolve_pseudo_version_commit_spec (w : PseudoWorld)
    (vcs_url ts short h : String) (hts : (checkPseudoTimestamp ts).isSome = true) :
    (resolve_pseudo_version_commit w vcs_url ts short = some h →
       strLeads short h = true
         ∧ ∃ u ∈ urlsToTry vcs_url, urlYields w u short = some h)
  ∧ (resolve_pseudo_version_commit w vcs_url ts short = none →
       ∀ u ∈ urlsToTry vcs_url, urlYields w u short = none) := by
  rcases hc : checkPseudoTimestamp ts with _ | dt
  · rw [hc] at hts
    simp at hts
  · constructor
    · intro hr
      rw [resolve_pseudo_version_commit, hc] at hr
      have hmem := tryPseudoUrls_some w short (urlsToTry vcs_url) h hr
      rcases hmem with ⟨u, hu, hy⟩
      refine ⟨?_, ⟨u, hu, hy⟩⟩
      rw [urlYields] at hy
      rcases hl : w.logOf u with _ | lines <;> rw [hl] at hy
      · exact absurd hy (by simp)
      · exact scanLog_some_leads short lines h hy
    · intro hr
      rw [resolve_pseudo_version_commit, hc] at hr
      exact tryPseudoUrls_none w short (urlsToTry vcs_url) hr

/-- Witness for C6: a valid timestamp and a log window containing a
matching commit; the returned hash extends the short hash and comes from
the primary URL. -/
theorem resolve_pseudo_version_commit_spec_witness :
    strLeads "42c35b437635" "42c35b437635aabbccddeeff00112233445566ff" = true
  ∧ ∃ u ∈ urlsToTry "https://example.com/repo",
      urlYields
        ⟨fun u => if u = "https://example.com/repo"
          then some ["42c35b437635aabbccddeeff00112233445566ff 1597474692"]
          else none⟩
        u "42c35b437635" = some "42c35b437635aabbccddeeff00112233445566ff" :=
  (resolve_pseudo_version_commit_spec
    ⟨fun u => if u = "https://example.com/repo"
      then some ["42c35b437635aabbccddeeff00112233445566ff 1597474692"]
      else none⟩
    "https://example.com/repo" "20200815063812" "42c35b437635"
    "42c35b437635aabbccddeeff00112233445566ff" (by decide)).1 (by decide)

/-- **C7.** A 14-digit timestamp that parses to a date whose year lies
outside 1970-9999 (including year 0001), or whose ±1-day window
arithmetic would leave the datetime range, makes
`resolve_pseudo_version_commit` return `null`; the embedding is a total
function, matching the source's catching of `ValueError` and
`OverflowError` (no exception escapes). -/
theorem resolve_pseudo_version_commit_rejects_bad_timestamp (w : PseudoWorld)
    (vcs_url ts short : String) (dt : PyDateTime)
    (hp : parseStrptime14 ts = some dt)
    (hbad : dt.year < 1970 ∨ 9999 < dt.year ∨ windowOverflow dt = true) :
    resolve_pseudo_version_commit w vcs_url ts short = none := by
  have hc : checkPseudoTimestamp ts = none := by
    rw [checkPseudoTimestamp, hp]
    dsimp only
    rcases hbad with h1 | h1 | h1
    · rw [if_pos (by simp [h1])]
    · rw [if_pos (by simp [h1])]
    · by_cases h2 : (decide (dt.year < 1970) || decide (9999 < dt.year)) = true
      · rw [if_pos h2]
      · rw [if_neg h2]
        by_cases h3 : dt.year = 1
        · rw [if_pos h3]
        · rw [if_neg h3, if_pos h1]
  rw [resolve_pseudo_version_commit, hc]

/-- Witness for C7: the year-0001 pseudo-version timestamp is rejected. -/
theorem resolve_pseudo_version_commit_rejects_bad_timestamp_witness :
    resolve_pseudo_version_commit ⟨fun _ => some ["deadbeef0000 1"]⟩
      "https://go.googlesource.com/tools" "00010101000000" "deadbeef0000" = none :=
  resolve_pseudo_version_commit_rejects_bad_timestamp
    ⟨fun _ => some ["deadbeef0000 1"]⟩
    "https://go.googlesource.com/tools" "00010101000000" "deadbeef0000"
    ⟨1, 1, 1, 0, 0, 0⟩ (by decide) (Or.inl (by decide))

/-! ## Sub-directory derivation (C1)

Two places in the source compute a record's `subdir`:
the default path of `resolve_module_metadata` (lines 3241-3249), which
strips one trailing `v\d+` component, and the monorepo sub-module
synthesis inside `_execute` (lines 1843-1891), which shortens the
replaced module path one component at a time and emits the remainder
verbatim. -/

/-- Python `s.split('/')`. -/
def splitOnCharAux (sep : Char) : List Char → List Char → List (List Char)
  | [], acc => [acc.reverse]
  | c :: cs, acc =>
    if c = sep then acc.reverse :: splitOnCharAux sep cs []
    else splitOnCharAux sep cs (c :: acc)

def splitSlash (s : String) : List String :=
  (splitOnCharAux '/' s.toList []).map String.mk

/-- Python `'/'.join(parts)`. -/
def joinSlash : List String → String
  | [] => ""
  | [s] => s
  | s :: rest => s ++ "/" ++ joinSlash rest

/-- `component.startswith('v') and component[1:].isdigit()` — a
major-version suffix such as `v2`, `v3`, `v11`. -/
def isVersionComponent (s : String) : Bool :=
  match s.toList with
  | 'v' :: rest => !rest.isEmpty && rest.all isDigitAscii
  | _ => false

/-- Subdir computation on the default path of `resolve_module_metadata`
(source lines 3241-3249): everything past the three-segment repo root,
with a single trailing `v\d+` component stripped. -/
def subdirFromModuleParts (parts : List String) : String :=
  if 3 < parts.length then
    let subdirParts := parts.drop 3
    let subdirParts :=
      if !subdirParts.isEmpty && isVersionComponent (List.getLastD subdirParts "") then
        subdirParts.dropLast
      else subdirParts
    joinSlash subdirParts
  else ""

/-- `base_candidates` of the monorepo sub-module synthesis (source lines
1852-1860): split points `i` from `len-1` down to `3`, each giving
`(base, subdir)` as the joined head and tail.  Applies when a replace
directive points at a sub-module path. -/
def baseCandidates (resolvedPath : String) : List (String × String) :=
  let segs := splitSlash resolvedPath
  (List.range' 3 (segs.length - 3)).reverse.map
    (fun i => (joinSlash (segs.take i), joinSlash (segs.drop i)))

/-- The monorepo synthesis loop (source lines 1862-1891): the first
candidate whose base path is already resolved and whose tag resolves via
ls-remote wins; the emitted record copies the candidate's remainder into
`subdir` unchanged.  `known` is `modules_by_path`; `tagResolves` is the
`git_ls_remote` outcome for the base module's repository. -/
def monorepoSynthSubdir (resolvedPath : String) (known : List String)
    (tagResolves : String → Bool) : Option (String × String) :=
  (baseCandidates resolvedPath).find?
    (fun bs => known.contains bs.1 && tagResolves bs.1)

/-- **C1 counterexample.** The monorepo sub-module synthesis for the
replaced path `github.com/k3s-io/etcd/server/v3` (base repository
already resolved) emits `subdir = "server/v3"`, whose last
slash-separated component is the major-version suffix `v3` — the exact
component that ends the module path.  The claimed invariant (no `subdir`
component equals a `v\d+` suffix, and the path's trailing `v\d+`
component never ends `subdir`) therefore fails on this resolution
path. -/
theorem monorepo_subdir_keeps_vN_counterexample :
    monorepoSynthSubdir "github.com/k3s-io/etcd/server/v3"
        ["github.com/k3s-io/etcd"]
        (fun b => b = "github.com/k3s-io/etcd")
      = some ("github.com/k3s-io/etcd", "server/v3")
  ∧ isVersionComponent (List.getLastD (splitSlash "server/v3") "") = true
  ∧ strEnds "v3" "github.com/k3s-io/etcd/server/v3" = true
  ∧ strEnds "v3" "server/v3" = true := by decide

/-- **C1 (amended).** On the default path of `resolve_module_metadata`,
a trailing `v\d+` component of the module path is stripped from
`subdir` (exactly one, and only at the end); on the monorepo sub-module
synthesis path the chosen candidate's remainder — one of the
`baseCandidates` splits, taken verbatim — becomes `subdir`, so a
trailing `v\d+` component survives there. -/
theorem subdir_vN_handling (parts : List String) (resolvedPath : String)
    (known : List String) (tagResolves : String → Bool) (base sub : String) :
    (3 < parts.length →
      isVersionComponent (List.getLastD (parts.drop 3) "") = true →
      subdirFromModuleParts parts = joinSlash ((parts.drop 3).dropLast))
  ∧ (monorepoSynthSubdir resolvedPath known tagResolves = some (base, sub) →
      (base, sub) ∈ baseCandidates resolvedPath ∧ known.contains base = true) := by
  constructor
  · intro hlen hv
    rw [subdirFromModuleParts, if_pos (by exact_mod_cast hlen)]
    have hne : (parts.drop 3).isEmpty = false := by
      rcases hd : parts.drop 3 with _ | ⟨x, xs⟩
      · exfalso
        have := List.drop_eq_nil_iff.mp hd
        omega
      · rfl
    dsimp only
    have hv' : isVersionComponent ((List.drop 3 parts).getLast?.getD "") = true := by
      simpa [List.getLastD_eq_getLast?] using hv
    simp [hne, hv, hv']
  · intro hfind
    have hmem := List.mem_of_find?_eq_some hfind
    have hp := List.find?_some hfind
    simp only [Bool.and_eq_true] at hp
    exact ⟨hmem, hp.1⟩

/-- Witness for the amended C1 at concrete inputs: the default path
strips the trailing `v3` of `github.com/k3s-io/etcd/server/v3` down to
`subdir = "server"`, while the monorepo synthesis keeps `server/v3`. -/
theorem subdir_vN_handling_witness :
    subdirFromModuleParts (splitSlash "github.com/k3s-io/etcd/server/v3") =
      joinSlash (((splitSlash "github.com/k3s-io/etcd/server/v3").drop 3).dropLast)
  ∧ (("github.com/k3s-io/etcd", "server/v3") ∈
        baseCandidates "github.com/k3s-io/etcd/server/v3"
      ∧ List.contains ["github.com/k3s-io/etcd"] "github.com/k3s-io/etcd" = true) :=
  ⟨(subdir_vN_handling (splitSlash "github.com/k3s-io/etcd/server/v3")
      "" [] (fun _ => false) "" "").1 (by decide) (by decide),
   (subdir_vN_handling [] "github.com/k3s-io/etcd/server/v3"
      ["github.com/k3s-io/etcd"] (fun b => b = "github.com/k3s-io/etcd")
      "github.com/k3s-io/etcd" "server/v3").2 (by decide)⟩

/-! ## The 40-character hash gates (C2)

The two places cited by the claim that validate `vcs_hash`:
`prune_metadata_cache` (source lines 473-504) and the length gate in
`discover_modules` (source lines 3626-3629). -/

/-- Python `s[n:]`. -/
def strDropLeft (n : Nat) (s : String) : String := String.mk (s.toList.drop n)

/-- `_normalize_url` (source lines 455-461). -/
def normalize_url (url : String) : String :=
  let url := pyStrip url
  let url := if strLeads "git://" url then "https://" ++ strDropLeft 6 url else url
  if strEnds ".git" url then strDropRight 4 url else url

/-- `_url_allowed_for_module` (source lines 464-470); `overrides` is the
`repo_override_candidates` result for the module. -/
def url_allowed_for_module (overrides : List String) (url : String) : Bool :=
  let url := normalize_url url
  if overrides.isEmpty then true
  else (overrides.map normalize_url).contains url

/-- The fields of a metadata-cache entry consulted by the pruning gate
(`entry.get('vcs_url', '')` and `entry.get('commit', '')`); the other
fields are not read there. -/
structure MetaEntry where
  vcs_url : String
  commit : String
deriving DecidableEq

/-- The keep-condition of `prune_metadata_cache` (source lines 484-501):
both fields present, `len(commit) == 40` and
`re.fullmatch(r'[0-9a-fA-F]\x7b40\x7d', commit)` — case-insensitive hex —
and the URL allowed by the override policy. -/
def pruneKeeps (overrides : List String) (e : MetaEntry) : Bool :=
  !(e.vcs_url = "" || e.commit = "")
    && (e.commit.toList.length = 40 && e.commit.toList.all isHexAscii)
    && url_allowed_for_module overrides e.vcs_url

/-- `prune_metadata_cache` (source lines 473-504) over the cache
contents; `ov` gives each key's override candidates. -/
def prune_metadata_cache (ov : String × String → List String)
    (cache : List ((String × String) × MetaEntry)) :
    List ((String × String) × MetaEntry) :=
  cache.filter (fun ke => pruneKeeps (ov ke.1) ke.2)

/-- The hash gate of `discover_modules` (source lines 3626-3629):
`len(vcs_hash) != 40` skips the module; nothing else is checked. -/
def discoverHashLenOk (s : String) : Bool := s.toList.length = 40

/-- The claim's regular expression `^[0-9a-f]\x7b40\x7d$`, stated from the
spec's words for comparison with the source gates. -/
def specLowerHex40 (s : String) : Bool :=
  s.toList.length = 40 && s.toList.all isLowerHexAscii

/-- **C2 counterexample.** A `vcs_hash` of forty uppercase `A`s passes
both cited validation gates — `prune_metadata_cache` keeps the entry and
the `discover_modules` length gate accepts the hash — yet it does not
match the claimed `^[0-9a-f]\x7b40\x7d$`: the gates are case-insensitive
(`[0-9a-fA-F]`) respectively length-only, so lowercase-ness of emitted
hashes is not enforced. -/
theorem vcs_hash_lowercase_counterexample :
    prune_metadata_cache (fun _ => [])
        [(("example.com/m", "v1.0.0"),
          ⟨"https://github.com/example/proj",
           String.mk (List.replicate 40 'A')⟩)]
      = [(("example.com/m", "v1.0.0"),
          ⟨"https://github.com/example/proj",
           String.mk (List.replicate 40 'A')⟩)]
  ∧ discoverHashLenOk (String.mk (List.replicate 40 'A')) = true
  ∧ specLowerHex40 (String.mk (List.replicate 40 'A')) = false := by decide

/-- **C2 (amended).** Every metadata-cache entry surviving
`prune_metadata_cache` has a non-empty URL and a commit of exactly forty
hexadecimal characters, where hex is case-insensitive (`[0-9a-fA-F]`);
the `discover_modules` gate checks exactly that the hash has length
forty.  Lowercase-only (`^[0-9a-f]\x7b40\x7d$`) is not guaranteed by the
driver's gates. -/
theorem vcs_hash_gates (ov : String × String → List String)
    (cache : List ((String × String) × MetaEntry))
    (k : String × String) (e : MetaEntry) (s : String) :
    ((k, e) ∈ prune_metadata_cache ov cache →
      e.vcs_url ≠ "" ∧ e.commit.toList.length = 40 ∧ e.commit.toList.all isHexAscii = true)
  ∧ (discoverHashLenOk s = true ↔ s.toList.length = 40) := by
  constructor
  · intro hmem
    have hp := (List.mem_filter.mp hmem).2
    rw [pruneKeeps] at hp
    simp only [Bool.and_eq_true, Bool.not_eq_true', Bool.or_eq_false_iff,
      decide_eq_false_iff_not, decide_eq_true_eq] at hp
    exact ⟨hp.1.1.1, hp.1.2.1, hp.1.2.2⟩
  · rw [discoverHashLenOk]
    exact decide_eq_true_iff

/-- Witness for the amended C2: a lowercase 40-hex entry survives the
prune and satisfies the extracted facts. -/
theorem vcs_hash_gates_witness :
    "https://github.com/example/proj" ≠ ""
  ∧ (String.mk (List.replicate 40 'f')).toList.length = 40
  ∧ (String.mk (List.replicate 40 'f')).toList.all isHexAscii = true :=
  (vcs_hash_gates (fun _ => [])
    [(("example.com/m", "v1.0.0"),
      ⟨"https://github.com/example/proj", String.mk (List.replicate 40 'f')⟩)]
    ("example.com/m", "v1.0.0")
    ⟨"https://github.com/example/proj", String.mk (List.replicate 40 'f')⟩
    "").1 (by decide)

/-! ## `verify_commit_accessible` (C3, C4)

Source lines 685-1233.  The verifier's module-level globals are the
state; each `git` invocation site is an oracle field of `VerifyWorld`.
Python exceptions that the source catches are folded into the normal
control flow at the position of the handler; exceptions with no matching
handler (`subprocess.TimeoutExpired` from the direct commit fetch at
line 821 or the tag re-fetch at line 843, and the `NameError` raised by
the `return ('corrected', module_path, ...)` statement at line 873,
whose name `module_path` is bound nowhere in the function or module
scope) escape as `Except.error`.  The embedding also returns the list of
external git operations performed, in order. -/

/-- A `VERIFY_COMMIT_CACHE_V2` entry (source lines 741-747, 1218-1223). -/
structure CacheEntryV2 where
  verified : Bool
  first_verified : String
  last_checked : Option String
  fetch_method : String
deriving DecidableEq

/-- The verifier globals `VERIFY_RESULTS`, `VERIFY_COMMIT_CACHE`
(legacy), `VERIFY_COMMIT_CACHE_V2`, `VERIFY_FALLBACK_COMMITS`,
`VERIFY_DETECTED_BRANCHES`, `VERIFY_FULL_REPOS`,
`VERIFY_COMMIT_CACHE_DIRTY`. -/
structure VerifyState where
  results : List ((String × String) × Bool)
  cacheLegacy : List (String × Bool)
  cacheV2 : List (String × CacheEntryV2)
  fallbackCommits : List ((String × String) × String)
  detectedBranches : List ((String × String) × String)
  fullRepos : List String
  cacheDirty : Bool
deriving DecidableEq

inductive FetchRes where
  | ok
  | procError
  | timeout
deriving DecidableEq

inductive RevRes where
  | ok (h : String)
  | procError
  | timeout
deriving DecidableEq

/-- Outcome of `git for-each-ref --contains` (source lines 1140-1148):
`found` when the return code is 0 and the output is non-empty. -/
inductive FERes where
  | found (b : String) (bs : List String)
  | noneFound
  | timeoutE
deriving DecidableEq

inductive PyErr where
  | nameError
  | timeoutErr
deriving DecidableEq

/-- External git operations, for the effect trace. -/
inductive GitOp where
  | fetchRef
  | fetchCommit
  | refetchTag
  | revParse
  | unshallowOp
  | fetchUpdates
  | fetchFallback
  | lsRemoteTag
  | fetchTagMoved
  | mergeBase
  | forEachRef
  | fallbackSearch
  | fallbackSearch2
deriving DecidableEq

/-- Oracles for the external effects of one `verify_commit_accessible`
call. -/
structure VerifyWorld where
  /-- `VERIFY_CACHE_MAX_AGE_DAYS` (source line 314, default 30). -/
  maxAgeDays : Int
  /-- `(now - fromisoformat(last_checked)).days` (source lines 719-720);
  `none` models a parse exception, which the handler at 731-733 turns
  into "not fresh". -/
  ageDays : String → Option Int
  /-- `datetime.now(timezone.utc).isoformat()`. -/
  now : String
  /-- `_commit_exists()` before any fetch (source line 784). -/
  commitExistsPre : Bool
  /-- `git fetch --depth=1 origin ref_hint` (line 796); both failure
  modes are caught and only logged, so the outcome is immaterial. -/
  fetchRefHint : FetchRes
  /-- `git fetch --depth=1 origin commit` (line 821); only
  `CalledProcessError` is caught (line 833) — a timeout escapes. -/
  fetchCommit : FetchRes
  /-- the tag re-fetch (line 843); only `CalledProcessError` is caught
  (line 874). -/
  refetchTag : FetchRes
  /-- `git rev-parse FETCH_HEAD` (line 854). -/
  revParseFetchHead : RevRes
  /-- the `shallow` marker file exists (line 896). -/
  isShallow : Bool
  /-- `git fetch --unshallow ...` (line 903). -/
  unshallowRes : FetchRes
  /-- `git fetch origin +refs/heads/*:...` when already full (line 947). -/
  fetchUpdatesRes : FetchRes
  /-- `_commit_exists(c)` after the fetch phase (lines 989, 1044, 1059,
  1095, 1188). -/
  commitExistsAt : String → Bool
  /-- `_find_fallback_commit` (line 997). -/
  fallback1 : Option (String × String)
  /-- the fetch of the fallback commit (lines 1013-1034; every exception
  is caught at 1035). -/
  fallbackFetchOk : Bool
  /-- `git_ls_remote(vcs_url, ref_hint)` (line 1070). -/
  lsRemoteTag : Option String
  /-- the tag fetch after a detected move (line 1080; every exception is
  caught at 1104). -/
  fetchTagMoved : FetchRes
  /-- `git merge-base --is-ancestor` (line 1112); never fatal. -/
  mergeBase : FetchRes
  /-- `git for-each-ref --contains` (line 1140). -/
  forEachRef : FERes
  /-- `_find_fallback_commit` for the orphaned case (line 1175). -/
  fallback2 : Option (String × String)

structure VerifyCtx where
  w : VerifyWorld
  vcs_url : String
  commit : String
  ref_hint : String
  cachedPassed : Bool

def VerifyCtx.key (ctx : VerifyCtx) : String × String := (ctx.vcs_url, ctx.commit)

def VerifyCtx.cacheKey (ctx : VerifyCtx) : String := ctx.vcs_url ++ "|||" ++ ctx.commit

/-- Python `b.replace('origin/', '')` (source line 1152). -/
def stripOriginSub : List Char → List Char
  | [] => []
  | c :: cs =>
    if leadsWith "origin/".toList (c :: cs) then stripOriginSub (cs.drop 6)
    else c :: stripOriginSub cs
termination_by l => l.length
decreasing_by
  · simp only [List.length_drop, List.length_cons]
    omega
  · simp

def stripOrigin (s : String) : String := String.mk (stripOriginSub s.toList)

abbrev VerifyOut := Except PyErr Bool × VerifyState × List GitOp

/-- The hard-failure return (source lines 878-888, 925-927, 940-942,
966-969, 981-984): record a negative result, drop the legacy cache
entry, mark the cache dirty. -/
def verifyFail (ctx : VerifyCtx) (st : VerifyState) (tr : List GitOp) : VerifyOut :=
  (.ok false,
   { st with results := insertA st.results ctx.key false,
             cacheLegacy := eraseA st.cacheLegacy ctx.cacheKey,
             cacheDirty := true }, tr)

/-- The soft-failure return (source lines 1037, 1046, 1050, 1055, 1190,
1195, 1199, 1203): only `VERIFY_RESULTS` is written. -/
def verifyFailSoft (ctx : VerifyCtx) (st : VerifyState) (tr : List GitOp) : VerifyOut :=
  (.ok false, { st with results := insertA st.results ctx.key false }, tr)

/-- The success tail (source lines 1211-1227): re-write the v2 cache
entry unless the call passed on a cached verification, then record the
positive result. -/
def verifyFinish (ctx : VerifyCtx) (st : VerifyState) (tr : List GitOp) : VerifyOut :=
  let st :=
    if !ctx.cachedPassed then
      { st with
        cacheV2 := insertA st.cacheV2 ctx.cacheKey
          ⟨true,
           (match lookupA st.cacheV2 ctx.cacheKey with
            | some e => e.first_verified
            | none => ctx.w.now),
           some ctx.w.now, "fetch"⟩,
        cacheDirty := true }
    else st
  (.ok true, { st with results := insertA st.results ctx.key true }, tr)

/-- Ref-hint side of the post-fetch check (source lines 1062-1130):
ls-remote tag-move re-check, then the non-fatal ancestry check. -/
def verifyTagSide (ctx : VerifyCtx) (st : VerifyState) (tr : List GitOp) (actual : String) :
    VerifyOut :=
  if strLeads "refs/tags/" ctx.ref_hint then
    let tr := tr ++ [.lsRemoteTag]
    match ctx.w.lsRemoteTag with
    | some c =>
      if ¬(c = actual) then
        let tr := tr ++ [.fetchTagMoved]
        match ctx.w.fetchTagMoved with
        | .ok =>
          let st :=
            { st with fallbackCommits := insertA st.fallbackCommits (ctx.vcs_url, actual) c }
          if ctx.w.commitExistsAt c then verifyFinish ctx st (tr ++ [.mergeBase])
          else
            (.ok false,
             { st with results := insertA st.results ctx.key false,
                       cacheLegacy := eraseA st.cacheLegacy ctx.cacheKey,
                       cacheDirty := true }, tr)
        | .procError => verifyFinish ctx st (tr ++ [.mergeBase])
        | .timeout => verifyFinish ctx st (tr ++ [.mergeBase])
      else verifyFinish ctx st (tr ++ [.mergeBase])
    | none => verifyFinish ctx st (tr ++ [.mergeBase])
  else verifyFinish ctx st (tr ++ [.mergeBase])

/-- Branch detection for the empty-ref-hint side (source lines
1131-1208), including the orphaned-commit fallback. -/
def verifyBranchDetect (ctx : VerifyCtx) (st : VerifyState) (tr : List GitOp)
    (actual : String) : VerifyOut :=
  if (lookupA st.detectedBranches (ctx.vcs_url, actual)).isSome then
    verifyFinish ctx st tr
  else
    let tr := tr ++ [.forEachRef]
    match ctx.w.forEachRef with
    | .found b bs =>
      let branches := (b :: bs).map stripOrigin
      let detected :=
        if branches.contains "main" then "main"
        else if branches.contains "master" then "master"
        else branches.headD ""
      verifyFinish ctx
        { st with detectedBranches := insertA st.detectedBranches (ctx.vcs_url, actual) detected }
        tr
    | .noneFound =>
      if ctx.ref_hint = "" ∧ actual = ctx.commit then
        let tr := tr ++ [.fallbackSearch2]
        match ctx.w.fallback2 with
        | some (fc, fb) =>
          let st :=
            { st with
              fallbackCommits := insertA st.fallbackCommits (ctx.vcs_url, ctx.commit) fc,
              detectedBranches := insertA st.detectedBranches (ctx.vcs_url, fc) fb }
          if ctx.w.commitExistsAt fc then verifyFinish ctx st tr
          else verifyFailSoft ctx st tr
        | none => verifyFailSoft ctx st tr
      else verifyFailSoft ctx st tr
    | .timeoutE => verifyFailSoft ctx st tr

/-- Post-fetch verification of the (possibly substituted) commit
(source lines 1058-1233). -/
def verifyTail2 (ctx : VerifyCtx) (st : VerifyState) (tr : List GitOp) (actual : String) :
    VerifyOut :=
  if ctx.w.commitExistsAt actual then
    if ctx.ref_hint = "" then verifyBranchDetect ctx st tr actual
    else verifyTagSide ctx st tr actual
  else
    (.ok false,
     { st with results := insertA st.results ctx.key false,
               cacheLegacy := eraseA st.cacheLegacy ctx.cacheKey,
               cacheV2 := eraseA st.cacheV2 ctx.cacheKey,
               cacheDirty := true }, tr)

/-- Missing-commit fallback then the post-fetch check (source lines
986-1056). -/
def verifyTail (ctx : VerifyCtx) (st : VerifyState) (tr : List GitOp) : VerifyOut :=
  if ctx.w.commitExistsAt ctx.commit then verifyTail2 ctx st tr ctx.commit
  else
    if ctx.ref_hint = "" then
      let tr := tr ++ [.fallbackSearch]
      match ctx.w.fallback1 with
      | some (fc, fb) =>
        let st :=
          { st with fallbackCommits := insertA st.fallbackCommits (ctx.vcs_url, ctx.commit) fc }
        let tr := tr ++ [.fetchFallback]
        if ctx.w.fallbackFetchOk then
          let st :=
            { st with detectedBranches := insertA st.detectedBranches (ctx.vcs_url, fc) fb }
          if ctx.w.commitExistsAt fc then verifyTail2 ctx st tr fc
          else verifyFailSoft ctx st tr
        else verifyFailSoft ctx st tr
      | none => verifyFailSoft ctx st tr
    else verifyFailSoft ctx st tr

/-- `verify_commit_accessible` (source lines 685-1233).  The `version`
and `timestamp` arguments only feed `_find_fallback_commit`, which is
the `fallback1`/`fallback2` oracle. -/
def verify_commit_accessible (w : VerifyWorld) (st : VerifyState)
    (vcs_url commit ref_hint _version _timestamp : String) : VerifyOut :=
  let key := (vcs_url, commit)
  match lookupA st.results key with
  | some v => (.ok v, st, [])
  | none =>
    let cacheKey := vcs_url ++ "|||" ++ commit
    let passedV2 :=
      match lookupA st.cacheV2 cacheKey with
      | some entry =>
        entry.verified &&
          (match entry.last_checked with
           | some lc =>
             match w.ageDays lc with
             | some age => decide (age < w.maxAgeDays)
             | none => false
           | none => true)
      | none => false
    let legacyHit := (lookupA st.cacheLegacy cacheKey).getD false
    let st :=
      if legacyHit then
        { st with cacheV2 := insertA st.cacheV2 cacheKey ⟨true, w.now, some w.now, "cached"⟩ }
      else st
    let ctx : VerifyCtx := ⟨w, vcs_url, commit, ref_hint, passedV2 || legacyHit⟩
    let commit_present := w.commitExistsPre
    let st :=
      if (lookupA st.cacheLegacy cacheKey).getD false && !commit_present then
        { st with cacheLegacy := eraseA st.cacheLegacy cacheKey, cacheDirty := true }
      else st
    let tr : List GitOp :=
      if !commit_present && !(ref_hint == "") then [.fetchRef] else []
    if ¬(ref_hint = "") ∧ commit_present = false then
      let tr := tr ++ [.fetchCommit]
      match w.fetchCommit with
      | .ok => verifyTail ctx st tr
      | .timeout => (.error .timeoutErr, st, tr)
      | .procError =>
        if strLeads "refs/tags/" ref_hint then
          let tr := tr ++ [.refetchTag]
          match w.refetchTag with
          | .ok =>
            let tr := tr ++ [.revParse]
            match w.revParseFetchHead with
            | .ok cur =>
              if ¬(cur = commit) then
                (.error .nameError,
                 { st with fallbackCommits := insertA st.fallbackCommits key cur }, tr)
              else verifyFail ctx st tr
            | .procError => verifyFail ctx st tr
            | .timeout => (.error .timeoutErr, st, tr)
          | .procError => verifyFail ctx st tr
          | .timeout => (.error .timeoutErr, st, tr)
        else verifyFail ctx st tr
    else
      if w.isShallow && !(st.fullRepos.contains vcs_url) then
        let tr := tr ++ [.unshallowOp]
        match w.unshallowRes with
        | .ok => verifyTail ctx { st with fullRepos := vcs_url :: st.fullRepos } tr
        | .timeout => verifyFail ctx st tr
        | .procError => verifyFail ctx st tr
      else
        let tr := tr ++ [.fetchUpdates]
        match w.fetchUpdatesRes with
        | .ok => verifyTail ctx st tr
        | .timeout => verifyFail ctx st tr
        | .procError => verifyFail ctx st tr

/-- A world exercising the moved-tag recovery path: the commit is not
present locally, its direct fetch fails, the tag re-fetch succeeds and
resolves to a different commit. -/
def tagMovedWorld : VerifyWorld where
  maxAgeDays := 30
  ageDays := fun _ => none
  now := "2026-01-01T00:00:00+00:00"
  commitExistsPre := false
  fetchRefHint := .ok
  fetchCommit := .procError
  refetchTag := .ok
  revParseFetchHead := .ok "bbbbbbbbbbbbbbbbbbbbbbbbbbbbbbbbbbbbbbbb"
  isShallow := true
  unshallowRes := .ok
  fetchUpdatesRes := .ok
  commitExistsAt := fun _ => false
  fallback1 := none
  fallbackFetchOk := false
  lsRemoteTag := none
  fetchTagMoved := .ok
  mergeBase := .ok
  forEachRef := .noneFound
  fallback2 := none

def emptyVerifyState : VerifyState := ⟨[], [], [], [], [], [], false⟩

/-- **C3.** On the moved-tag recovery path — ref hint given, direct
commit fetch fails, tag re-fetch resolves to a different hash — the
function does record the old-to-new correction in
`VERIFY_FALLBACK_COMMITS`, but then the statement
`return ('corrected', module_path, version, commit, current_tag_commit)`
(source line 873) evaluates the name `module_path`, which is bound
neither in the function nor at module scope, so the call raises
`NameError` instead of returning a successful verification result. -/
theorem verify_tag_moved_records_then_raises :
    verify_commit_accessible tagMovedWorld emptyVerifyState
        "https://github.com/example/proj"
        "aaaaaaaaaaaaaaaaaaaaaaaaaaaaaaaaaaaaaaaa"
        "refs/tags/v1.2.3" "v1.2.3" ""
      = (.error .nameError,
         { emptyVerifyState with
             fallbackCommits :=
               [(("https://github.com/example/proj",
                  "aaaaaaaaaaaaaaaaaaaaaaaaaaaaaaaaaaaaaaaa"),
                 "bbbbbbbbbbbbbbbbbbbbbbbbbbbbbbbbbbbbbbbb")] },
         [.fetchRef, .fetchCommit, .refetchTag, .revParse]) := by rfl

/-- A world with a fresh verified v2 cache entry where the
repository-update fetch nevertheless fails. -/
def freshCacheWorld : VerifyWorld where
  maxAgeDays := 30
  ageDays := fun _ => some 0
  now := "2026-01-01T00:00:00+00:00"
  commitExistsPre := true
  fetchRefHint := .ok
  fetchCommit := .ok
  refetchTag := .ok
  revParseFetchHead := .procError
  isShallow := false
  unshallowRes := .ok
  fetchUpdatesRes := .procError
  commitExistsAt := fun _ => true
  fallback1 := none
  fallbackFetchOk := true
  lsRemoteTag := none
  fetchTagMoved := .ok
  mergeBase := .ok
  forEachRef := .noneFound
  fallback2 := none

def freshCacheState : VerifyState where
  results := []
  cacheLegacy := []
  cacheV2 :=
    [("https://github.com/example/proj|||aaaaaaaaaaaaaaaaaaaaaaaaaaaaaaaaaaaaaaaa",
      ⟨true, "2026-01-01T00:00:00+00:00", some "2026-01-01T00:00:00+00:00", "fetch"⟩)]
  fallbackCommits := []
  detectedBranches := []
  fullRepos := []
  cacheDirty := false

/-- **C4 counterexample.** The v2 verification cache holds a verified
entry for `(url, commit)` whose age (0 days) is within the 30-day
window, and a ref hint is present — yet `verify_commit_accessible` does
not succeed on the cache alone: it still issues an upstream fetch (the
trace contains `fetchUpdates`), and when that fetch fails it returns a
negative verification result.  The fresh cache entry never
short-circuits the call. -/
theorem verify_fresh_cache_still_fails_counterexample :
    lookupA freshCacheState.cacheV2
        ("https://github.com/example/proj" ++ "|||"
          ++ "aaaaaaaaaaaaaaaaaaaaaaaaaaaaaaaaaaaaaaaa")
      = some ⟨true, "2026-01-01T00:00:00+00:00",
              some "2026-01-01T00:00:00+00:00", "fetch"⟩
  ∧ freshCacheWorld.ageDays "2026-01-01T00:00:00+00:00" = some 0
  ∧ (0 : Int) < freshCacheWorld.maxAgeDays
  ∧ (verify_commit_accessible freshCacheWorld freshCacheState
        "https://github.com/example/proj"
        "aaaaaaaaaaaaaaaaaaaaaaaaaaaaaaaaaaaaaaaa"
        "refs/heads/main" "v1.2.3" "").1 = .ok false
  ∧ (verify_commit_accessible freshCacheWorld freshCacheState
        "https://github.com/example/proj"
        "aaaaaaaaaaaaaaaaaaaaaaaaaaaaaaaaaaaaaaaa"
        "refs/heads/main" "v1.2.3" "").2.2 = [.fetchUpdates] := by
  refine ⟨rfl, rfl, by decide, rfl, rfl⟩

/-- **C4 (amended).** A fresh verified v2 cache entry does not
short-circuit verification; its only effect is that the v2 cache entry
is not re-written at the end.  With an empty ref hint the function still
fetches the repository from upstream (`fetchUpdates` is issued), still
re-checks the commit locally, and branch detection still runs
(`forEachRef` is issued); on success the v2 cache is left exactly as it
was. -/
theorem verify_fresh_cache_no_rewrite (w : VerifyWorld) (st : VerifyState)
    (vcs_url commit version timestamp : String)
    (entry : CacheEntryV2) (lc : String) (a : Int) (b : String) (bs : List String)
    (h1 : lookupA st.results (vcs_url, commit) = none)
    (h2 : lookupA st.cacheV2 (vcs_url ++ "|||" ++ commit) = some entry)
    (h3 : entry.verified = true)
    (h4 : entry.last_checked = some lc)
    (h5 : w.ageDays lc = some a)
    (h6 : a < w.maxAgeDays)
    (h7 : lookupA st.cacheLegacy (vcs_url ++ "|||" ++ commit) = none)
    (h8 : w.isShallow = false)
    (h9 : w.fetchUpdatesRes = .ok)
    (h10 : w.commitExistsAt commit = true)
    (h11 : lookupA st.detectedBranches (vcs_url, commit) = none)
    (h12 : w.forEachRef = .found b bs) :
    (verify_commit_accessible w st vcs_url commit "" version timestamp).1 = .ok true
  ∧ (verify_commit_accessible w st vcs_url commit "" version timestamp).2.1.cacheV2 =
      st.cacheV2
  ∧ (verify_commit_accessible w st vcs_url commit "" version timestamp).2.2 =
      [.fetchUpdates, .forEachRef] := by
  refine ⟨?_, ?_, ?_⟩ <;>
    simp [verify_commit_accessible, verifyTail, verifyTail2, verifyBranchDetect,
      verifyFinish, h1, h2, h3, h4, h5, h6, h7, h8, h9, h10, h11, h12]

/-- Witness for the amended C4: a fresh cache entry, successful update
fetch and branch detection; the call succeeds, the v2 cache is
unchanged, and both the upstream fetch and the branch-detection git call
appear in the trace. -/
theorem verify_fresh_cache_no_rewrite_witness :
    (verify_commit_accessible
        { freshCacheWorld with fetchUpdatesRes := .ok, forEachRef := .found "origin/main" [] }
        freshCacheState
        "https://github.com/example/proj"
        "aaaaaaaaaaaaaaaaaaaaaaaaaaaaaaaaaaaaaaaa" "" "v1.2.3" "").1 = .ok true
  ∧ (verify_commit_accessible
        { freshCacheWorld with fetchUpdatesRes := .ok, forEachRef := .found "origin/main" [] }
        freshCacheState
        "https://github.com/example/proj"
        "aaaaaaaaaaaaaaaaaaaaaaaaaaaaaaaaaaaaaaaa" "" "v1.2.3" "").2.1.cacheV2 =
      freshCacheState.cacheV2
  ∧ (verify_commit_accessible
        { freshCacheWorld with fetchUpdatesRes := .ok, forEachRef := .found "origin/main" [] }
        freshCacheState
        "https://github.com/example/proj"
        "aaaaaaaaaaaaaaaaaaaaaaaaaaaaaaaaaaaaaaaa" "" "v1.2.3" "").2.2 =
      [.fetchUpdates, .forEachRef] :=
  verify_fresh_cache_no_rewrite
    { freshCacheWorld with fetchUpdatesRes := .ok, forEachRef := .found "origin/main" [] }
    freshCacheState
    "https://github.com/example/proj" "aaaaaaaaaaaaaaaaaaaaaaaaaaaaaaaaaaaaaaaa"
    "v1.2.3" ""
    ⟨true, "2026-01-01T00:00:00+00:00", some "2026-01-01T00:00:00+00:00", "fetch"⟩
    "2026-01-01T00:00:00+00:00" 0 "origin/main" []
    rfl rfl rfl rfl rfl (by decide) rfl rfl rfl rfl rfl rfl

end OeGoMod
